import Mathlib

/-!
Shallow embedding of the string-formatting and announcer parts of the
keyboard-navigation plugin: the key-code rendering module (private `keyNames`
table,
`getKeyClassName`, `toTitleCase`, `keyCodeToString`, `keyCodeArrayToString`),
the exported `keyNames` table of `src/keynames.ts`, and the `Announcer` class
(`listShortcuts`, `setText`).

JavaScript strings are modelled as Lean `String`; JavaScript objects used as
string-keyed records are modelled as association lists (`List (String × α)`)
whose order models the enumeration order of the object; the DOM element that the
announcer writes to is modelled as `Option String` (`none` when
`document.getElementById` found no element, `some s` when the element exists
with innerHTML `s`).
-/

namespace KeyboardNav

/-- Model of JavaScript `s.charAt(0)`: the one-character string holding the
first character, or the empty string when `s` is empty. -/
def jsCharAt0 (s : String) : String :=
  String.mk (s.data.take 1)

/-- Model of JavaScript `s.substring(1)`: everything after the first
character. -/
def jsSubstring1 (s : String) : String :=
  String.mk (s.data.drop 1)

/-- Model of JavaScript `s.toUpperCase()`: characterwise uppercasing. -/
def jsToUpperCase (s : String) : String :=
  String.mk (s.data.map Char.toUpper)

/-- Model of JavaScript `s.toLowerCase()`: characterwise lowercasing. -/
def jsToLowerCase (s : String) : String :=
  String.mk (s.data.map Char.toLower)

/-- Auxiliary recursion for `jsSplitPlus`: `acc` holds the characters of the
current piece in reverse. -/
def splitPlusAux : List Char → List Char → List String
  | [], acc => [String.mk acc.reverse]
  | c :: cs, acc =>
    if c = '+' then String.mk acc.reverse :: splitPlusAux cs []
    else splitPlusAux cs (c :: acc)

/-- Model of JavaScript `s.split('+')`: the pieces of `s` between occurrences
of `+`.  As in JavaScript, the result always has at least one element, and
`"".split('+')` is `[""]`. -/
def jsSplitPlus (s : String) : List String :=
  splitPlusAux s.data []

namespace ShortcutFormatting

/-- The private `keyNames` table of the key-code rendering module: key codes
(as decimal strings, the form JavaScript gives numeric object keys) to key
names, in source order. -/
def keyNames : List (String × String) := [
  ("8", "backspace"),
  ("9", "tab"),
  ("13", "enter"),
  ("16", "shift"),
  ("17", "ctrl"),
  ("18", "alt"),
  ("19", "pause"),
  ("20", "caps-lock"),
  ("27", "esc"),
  ("32", "space"),
  ("33", "pg-up"),
  ("34", "pg-down"),
  ("35", "end"),
  ("36", "home"),
  ("37", "left"),
  ("38", "up"),
  ("39", "right"),
  ("40", "down"),
  ("45", "insert"),
  ("46", "delete"),
  ("48", "0"),
  ("49", "1"),
  ("50", "2"),
  ("51", "3"),
  ("52", "4"),
  ("53", "5"),
  ("54", "6"),
  ("55", "7"),
  ("56", "8"),
  ("57", "9"),
  ("59", "semicolon"),
  ("61", "equals"),
  ("65", "a"),
  ("66", "b"),
  ("67", "c"),
  ("68", "d"),
  ("69", "e"),
  ("70", "f"),
  ("71", "g"),
  ("72", "h"),
  ("73", "i"),
  ("74", "j"),
  ("75", "k"),
  ("76", "l"),
  ("77", "m"),
  ("78", "n"),
  ("79", "o"),
  ("80", "p"),
  ("81", "q"),
  ("82", "r"),
  ("83", "s"),
  ("84", "t"),
  ("85", "u"),
  ("86", "v"),
  ("87", "w"),
  ("88", "x"),
  ("89", "y"),
  ("90", "z"),
  ("93", "context"),
  ("96", "num-0"),
  ("97", "num-1"),
  ("98", "num-2"),
  ("99", "num-3"),
  ("100", "num-4"),
  ("101", "num-5"),
  ("102", "num-6"),
  ("103", "num-7"),
  ("104", "num-8"),
  ("105", "num-9"),
  ("106", "num-multiply"),
  ("107", "num-plus"),
  ("109", "num-minus"),
  ("110", "num-period"),
  ("111", "num-division"),
  ("112", "f1"),
  ("113", "f2"),
  ("114", "f3"),
  ("115", "f4"),
  ("116", "f5"),
  ("117", "f6"),
  ("118", "f7"),
  ("119", "f8"),
  ("120", "f9"),
  ("121", "f10"),
  ("122", "f11"),
  ("123", "f12"),
  ("186", "semicolon"),
  ("187", "equals"),
  ("189", "dash"),
  ("188", ","),
  ("190", "."),
  ("191", "/"),
  ("192", "`"),
  ("219", "open-square-bracket"),
  ("220", "\\"),
  ("221", "close-square-bracket"),
  ("222", "single-quote"),
  ("224", "win")
]

/-- `modifierKeys` from the key-code rendering module. -/
def modifierKeys : List String := ["control", "alt", "meta"]

/-- `getKeyClassName`: the string "key modifier" when the lowercased key name is one
of `modifierKeys`, else "key". -/
def getKeyClassName (keyName : String) : String :=
  if modifierKeys.contains (jsToLowerCase keyName) then "key modifier" else "key"

/-- `toTitleCase`: uppercases the first character and lowercases the rest. -/
def toTitleCase (str : String) : String :=
  jsToUpperCase (jsCharAt0 str) ++ jsToLowerCase (jsSubstring1 str)

/-- The body of the `for` loop of `keyCodeToString`, as a recursion over the
remaining pieces carrying the loop index `i`: each piece is looked up in
`keyNames` (falling back to the piece itself), wrapped in a span classed by
`getKeyClassName`, with `+` prepended when `i > 0`. -/
def renderPieces : Nat → List String → String
  | _, [] => ""
  | i, piece :: rest =>
    let strrep := (List.lookup piece keyNames).getD piece
    let className := getKeyClassName strrep
    (if i > 0 then "+" else "") ++
      ("<span class=\"" ++ className ++ "\">" ++ toTitleCase strrep ++ "</span>") ++
      renderPieces (i + 1) rest

/-- `keyCodeToString`: wraps the rendered pieces of the serialized key code in
a `shortcut-combo` span carrying the index. -/
def keyCodeToString (keycode : String) (index : Nat) : String :=
  "<span class=\"shortcut-combo shortcut-combo-" ++ toString index ++ "\">" ++
    renderPieces 0 (jsSplitPlus keycode) ++ "</span>"

/-- `keyCodeArrayToString`: maps `keyCodeToString` over the array with each
index of each element and joins with the separator span. -/
def keyCodeArrayToString (keycodeArr : List String) : String :=
  String.intercalate "<span class=\"separator\">/</span>"
    (keycodeArr.mapIdx fun index keycode => keyCodeToString keycode index)

/-- Specification-side rendering of a single piece: lookup with fallback,
title-cased, wrapped in a span classed by `getKeyClassName`. -/
def pieceSpan (piece : String) : String :=
  let strrep := (List.lookup piece keyNames).getD piece
  "<span class=\"" ++ getKeyClassName strrep ++ "\">" ++ toTitleCase strrep ++ "</span>"

/-- Specification-side join: `+` inserted between consecutive rendered
pieces. -/
def sepPlus : List String → String
  | [] => ""
  | [p] => p
  | p :: q :: rest => p ++ "+" ++ sepPlus (q :: rest)

/-- Tail form of `sepPlus`: every element prefixed by `+`. -/
def sepPlusTail : List String → String
  | [] => ""
  | p :: rest => "+" ++ p ++ sepPlusTail rest

end ShortcutFormatting

namespace Keynames

/-- The exported `keyNames` table of `src/keynames.ts`, in source order. -/
def keyNames : List (String × String) := [
  ("8", "backspace"),
  ("9", "tab"),
  ("13", "enter"),
  ("16", "shift"),
  ("17", "ctrl"),
  ("18", "alt"),
  ("19", "pause"),
  ("20", "caps-lock"),
  ("27", "esc"),
  ("32", "space"),
  ("33", "pg-up"),
  ("34", "pg-down"),
  ("35", "end"),
  ("36", "home"),
  ("37", "left"),
  ("38", "up"),
  ("39", "right"),
  ("40", "down"),
  ("45", "insert"),
  ("46", "delete"),
  ("48", "0"),
  ("49", "1"),
  ("50", "2"),
  ("51", "3"),
  ("52", "4"),
  ("53", "5"),
  ("54", "6"),
  ("55", "7"),
  ("56", "8"),
  ("57", "9"),
  ("59", "semicolon"),
  ("61", "equals"),
  ("65", "a"),
  ("66", "b"),
  ("67", "c"),
  ("68", "d"),
  ("69", "e"),
  ("70", "f"),
  ("71", "g"),
  ("72", "h"),
  ("73", "i"),
  ("74", "j"),
  ("75", "k"),
  ("76", "l"),
  ("77", "m"),
  ("78", "n"),
  ("79", "o"),
  ("80", "p"),
  ("81", "q"),
  ("82", "r"),
  ("83", "s"),
  ("84", "t"),
  ("85", "u"),
  ("86", "v"),
  ("87", "w"),
  ("88", "x"),
  ("89", "y"),
  ("90", "z"),
  ("93", "context"),
  ("96", "num-0"),
  ("97", "num-1"),
  ("98", "num-2"),
  ("99", "num-3"),
  ("100", "num-4"),
  ("101", "num-5"),
  ("102", "num-6"),
  ("103", "num-7"),
  ("104", "num-8"),
  ("105", "num-9"),
  ("106", "num-multiply"),
  ("107", "num-plus"),
  ("109", "num-minus"),
  ("110", "num-period"),
  ("111", "num-division"),
  ("112", "f1"),
  ("113", "f2"),
  ("114", "f3"),
  ("115", "f4"),
  ("116", "f5"),
  ("117", "f6"),
  ("118", "f7"),
  ("119", "f8"),
  ("120", "f9"),
  ("121", "f10"),
  ("122", "f11"),
  ("123", "f12"),
  ("186", "semicolon"),
  ("187", "equals"),
  ("189", "dash"),
  ("188", ","),
  ("190", "."),
  ("191", "/"),
  ("192", "`"),
  ("219", "open-square-bracket"),
  ("220", "\\"),
  ("221", "close-square-bracket"),
  ("222", "single-quote"),
  ("224", "win")
]

end Keynames

namespace AnnouncerModule

/-- Model of the external Blockly `ShortcutRegistry` state: an association
list from shortcut name to the list of serialized key codes bound to it; the
list order models the enumeration order of the registry object. -/
abbrev Registry := List (String × List String)

/-- Model of `ShortcutRegistry.registry.getRegistry()`: a read returning the
key-binding table together with the (unchanged) registry state. -/
def getRegistry (r : Registry) : Registry × Registry := (r, r)

/-- Model of `ShortcutRegistry.registry.getKeyCodesByShortcutName(name)`: a
read returning the key codes bound to `name` together with the (unchanged)
registry state. -/
def getKeyCodesByShortcutName (shortcutName : String) (r : Registry) :
    List String × Registry :=
  ((List.lookup shortcutName r).getD [], r)

/-- State of an `Announcer` instance: each DOM-element field is `none` when
the element is absent (`null`) and `some s` when it exists with innerHTML
`s`. -/
structure AnnouncerState where
  outputDiv : Option String
  modalContainer : Option String
  shortcutDialog : Option String
  deriving Repr, DecidableEq

/-- The `Announcer` constructor: `outputDiv` is whatever
`document.getElementById` applied to the announcer id returned; the other fields start
`null`. -/
def newAnnouncer (domAnnouncer : Option String) : AnnouncerState :=
  ⟨domAnnouncer, none, none⟩

/-- The header of the table built by `listShortcuts` (the template literal,
with its source indentation). -/
def headerText : String :=
  "<table>\n    <thead>\n    <tr>\n    <td>Shortcut name</td>\n    <td>Shortcut action</td>\n    </tr>\n    </thead>"

/-- The loop step of `listShortcuts`: appends one table row for the named
shortcut, reading its key codes from the registry threaded in the
accumulator. -/
def listShortcutsStep (acc : String × Registry) (keyboardShortcut : String) :
    String × Registry :=
  let lk := getKeyCodesByShortcutName keyboardShortcut acc.2
  (acc.1 ++ ("<tr><td>" ++ keyboardShortcut ++ "</td> <td>" ++
      ShortcutFormatting.keyCodeArrayToString lk.1 ++ "</td></tr>"),
    lk.2)

/-- `Announcer.listShortcuts`: builds the table text by folding the loop over
the shortcut names of the registry and, when the output element exists, writes the
text (plus the closing tag) to its innerHTML. -/
def listShortcuts (reg : Registry) (a : AnnouncerState) :
    Registry × AnnouncerState :=
  let pair := getRegistry reg
  let res := (pair.1.map Prod.fst).foldl listShortcutsStep (headerText, pair.2)
  (res.2,
    match a.outputDiv with
    | some _ => { a with outputDiv := some (res.1 ++ "\n</table/>") }
    | none => a)

/-- `Announcer.setText`: writes `text` to the innerHTML of the output element when
the element exists. -/
def setText (text : String) (a : AnnouncerState) : AnnouncerState :=
  match a.outputDiv with
  | some _ => { a with outputDiv := some text }
  | none => a

/-- Specification-side row rendering: one table row per registry entry, in
enumeration order, holding the shortcut name and its pretty-printed key
codes. -/
def shortcutRows : Registry → String
  | [] => ""
  | e :: rest =>
    "<tr><td>" ++ e.1 ++ "</td> <td>" ++
      ShortcutFormatting.keyCodeArrayToString e.2 ++ "</td></tr>" ++
      shortcutRows rest

end AnnouncerModule

namespace ShortcutFormatting

lemma sepPlus_cons (p : String) (rest : List String) :
    sepPlus (p :: rest) = p ++ sepPlusTail rest := by
  induction rest generalizing p with
  | nil => simp [sepPlus, sepPlusTail]
  | cons q rest ih =>
    simp only [sepPlus, sepPlusTail, ih q, String.append_assoc]

lemma renderPieces_pos : ∀ (l : List String) (i : Nat), 0 < i →
    renderPieces i l = sepPlusTail (l.map pieceSpan) := by
  intro l
  induction l with
  | nil => intro i _; rfl
  | cons p rest ih =>
    intro i hi
    simp only [renderPieces, List.map, sepPlusTail, pieceSpan]
    rw [if_pos hi, ih (i + 1) (Nat.succ_pos i)]

lemma renderPieces_zero (l : List String) :
    renderPieces 0 l = sepPlus (l.map pieceSpan) := by
  cases l with
  | nil => rfl
  | cons p rest =>
    simp only [renderPieces, List.map, pieceSpan, sepPlus_cons]
    rw [if_neg (Nat.lt_irrefl 0), renderPieces_pos rest 1 Nat.one_pos,
      String.empty_append]

/-- C1: for every serialized key code string and index, `keyCodeToString`
returns a single shortcut-combo span wrapper carrying the index, containing
each `+`-separated piece in order — the piece looked up in `keyNames` with the
piece itself as fallback, title-cased by `toTitleCase`, wrapped in a span
classed by `getKeyClassName` — with `+` inserted between consecutive
pieces. -/
theorem keyCodeToString_spec (keycode : String) (index : Nat) :
    keyCodeToString keycode index =
      "<span class=\"shortcut-combo shortcut-combo-" ++ toString index ++ "\">" ++
        sepPlus ((jsSplitPlus keycode).map pieceSpan) ++ "</span>" := by
  simp only [keyCodeToString, renderPieces_zero]

/-- C2: `keyCodeArrayToString` joins the elementwise `keyCodeToString` results
(each element with its position as the index) with the literal separator span;
on the empty array it returns the empty string, and on a singleton array it
returns `keyCodeToString` of the element at index 0 with no separator. -/
theorem keyCodeArrayToString_spec :
    (∀ keycodeArr : List String,
        keyCodeArrayToString keycodeArr =
          String.intercalate "<span class=\"separator\">/</span>"
            (keycodeArr.enum.map fun p => keyCodeToString p.2 p.1)) ∧
    keyCodeArrayToString [] = "" ∧
    (∀ k : String, keyCodeArrayToString [k] = keyCodeToString k 0) := by
  refine ⟨?_, rfl, ?_⟩
  · intro keycodeArr
    simp only [keyCodeArrayToString, List.mapIdx_eq_enum_map]
    rfl
  · intro k
    simp [keyCodeArrayToString]
    rfl

/-- C5: `toTitleCase` maps a string to the uppercase of its first character
followed by the lowercase of the remainder; it is total (defined for every
string) and returns the empty string on the empty string. -/
theorem toTitleCase_spec :
    (∀ s : String,
        (toTitleCase s).data =
          match s.data with
          | [] => []
          | c :: cs => Char.toUpper c :: cs.map Char.toLower) ∧
    toTitleCase "" = "" := by
  refine ⟨?_, rfl⟩
  intro s
  cases h : s.data with
  | nil =>
    simp [toTitleCase, jsToUpperCase, jsCharAt0, jsToLowerCase, jsSubstring1, h]
  | cons c cs =>
    simp [toTitleCase, jsToUpperCase, jsCharAt0, jsToLowerCase, jsSubstring1, h]

/-- C9: `getKeyClassName` returns the class string for modifiers exactly when
the lowercased key name is one of the three modifier names, returns one of the
two class strings on every input, and classifies the name bound to key code 17
in `keyNames` — which is the string holding c, t, r, l — as a plain key. -/
theorem getKeyClassName_spec (keyName : String) :
    (getKeyClassName keyName = "key modifier" ↔
      jsToLowerCase keyName = "control" ∨ jsToLowerCase keyName = "alt" ∨
        jsToLowerCase keyName = "meta") ∧
    (getKeyClassName keyName = "key modifier" ∨ getKeyClassName keyName = "key") ∧
    List.lookup "17" keyNames = some "ctrl" ∧
    getKeyClassName "ctrl" = "key" := by
  refine ⟨?_, ?_, by rfl, by rfl⟩
  · by_cases h : modifierKeys.contains (jsToLowerCase keyName)
    · rw [getKeyClassName, if_pos h]
      simp only [modifierKeys] at h
      simpa using h
    · rw [getKeyClassName, if_neg h]
      simp only [modifierKeys] at h
      simpa using h
  · by_cases h : modifierKeys.contains (jsToLowerCase keyName)
    · exact Or.inl (by rw [getKeyClassName, if_pos h])
    · exact Or.inr (by rw [getKeyClassName, if_neg h])

/-- C8: the `keyNames` table is not injective, so key-code rendering is not
invertible: the distinct serialized key codes 59 and 186 (and likewise 61 and
187) render to identical strings under `keyCodeToString` at the same index,
because `keyNames` assigns them the same name. -/
theorem keyCodeToString_not_injective :
    ("59" : String) ≠ "186" ∧
    keyCodeToString "59" 0 = keyCodeToString "186" 0 ∧
    ("61" : String) ≠ "187" ∧
    keyCodeToString "61" 0 = keyCodeToString "187" 0 ∧
    List.lookup "59" keyNames = List.lookup "186" keyNames ∧
    List.lookup "59" keyNames = some "semicolon" :=
  ⟨by decide, by rfl, by decide, by rfl, by rfl, by rfl⟩

end ShortcutFormatting

/-- C7: the private `keyNames` table of the key-code rendering module and the
exported `keyNames` table of `src/keynames.ts` are equal as finite maps: they
are the same association list, so they have the same keys in the same order
and bind every key to the same name. -/
theorem keyNames_tables_agree :
    ShortcutFormatting.keyNames = Keynames.keyNames ∧
    ShortcutFormatting.keyNames.map Prod.fst = Keynames.keyNames.map Prod.fst ∧
    ∀ k : String,
      List.lookup k ShortcutFormatting.keyNames = List.lookup k Keynames.keyNames := by
  have h : ShortcutFormatting.keyNames = Keynames.keyNames := rfl
  exact ⟨h, by rw [h], fun k => by rw [h]⟩

namespace AnnouncerModule

lemma foldl_step_registry : ∀ (shortcutNames : List String) (t : String) (r : Registry),
    (shortcutNames.foldl listShortcutsStep (t, r)).2 = r := by
  intro shortcutNames
  induction shortcutNames with
  | nil => intro t r; rfl
  | cons n rest ih => intro t r; exact ih _ r

lemma lookup_of_mem_nodup : ∀ (l : Registry), (l.map Prod.fst).Nodup →
    ∀ p ∈ l, List.lookup p.1 l = some p.2 := by
  intro l
  induction l with
  | nil => intro _ p hp; cases hp
  | cons e rest ih =>
    intro hnd p hp
    obtain ⟨k, v⟩ := e
    rw [List.map_cons, List.nodup_cons] at hnd
    rcases List.mem_cons.mp hp with h | h
    · subst h; simp [List.lookup]
    · have hne : p.1 ≠ k := by
        intro hEq
        have hmem : p.1 ∈ rest.map Prod.fst := List.mem_map_of_mem Prod.fst h
        exact hnd.1 (hEq ▸ hmem)
      have hbeq : (p.1 == k) = false := beq_eq_false_iff_ne.mpr hne
      simp only [List.lookup, hbeq]
      exact ih hnd.2 p h

lemma foldl_step_text : ∀ (entries reg : Registry) (t : String),
    (∀ p ∈ entries, List.lookup p.1 reg = some p.2) →
    ((entries.map Prod.fst).foldl listShortcutsStep (t, reg)).1 =
      t ++ shortcutRows entries := by
  intro entries
  induction entries with
  | nil => intro reg t _; simp [shortcutRows]
  | cons e rest ih =>
    intro reg t hl
    obtain ⟨k, v⟩ := e
    have hk : List.lookup k reg = some v := hl (k, v) (List.mem_cons_self _ _)
    have hstep : listShortcutsStep (t, reg) k =
        (t ++ ("<tr><td>" ++ k ++ "</td> <td>" ++
          ShortcutFormatting.keyCodeArrayToString v ++ "</td></tr>"), reg) := by
      simp [listShortcutsStep, getKeyCodesByShortcutName, hk]
    rw [List.map_cons, List.foldl_cons, hstep,
      ih reg _ (fun p hp => hl p (List.mem_cons_of_mem _ hp))]
    apply String.ext
    simp [shortcutRows, String.data_append, List.append_assoc]

/-- C3: when the announcer output element exists, `listShortcuts` sets its
content to an HTML table: the header row followed by exactly one row per
shortcut name registered in the registry, in the enumeration order of the
registry, each row holding the shortcut name and `keyCodeArrayToString` of the
key codes bound to that name (registry keys are distinct, as the keys of a
JavaScript object are). -/
theorem listShortcuts_renders_table (reg : Registry)
    (hnd : (reg.map Prod.fst).Nodup) (c : String) (m d : Option String) :
    (listShortcuts reg ⟨some c, m, d⟩).2 =
      ⟨some (headerText ++ shortcutRows reg ++ "\n</table/>"), m, d⟩ := by
  have hres : ((reg.map Prod.fst).foldl listShortcutsStep (headerText, reg)).1 =
      headerText ++ shortcutRows reg :=
    foldl_step_text reg reg headerText (lookup_of_mem_nodup reg hnd)
  simp [listShortcuts, getRegistry, hres]

/-- Witness for C3 at a concrete one-entry registry. -/
theorem listShortcuts_renders_table_witness :
    (([("test", ["27"])] : Registry).map Prod.fst).Nodup ∧
    (listShortcuts [("test", ["27"])] ⟨some "", none, none⟩).2 =
      ⟨some (headerText ++ shortcutRows [("test", ["27"])] ++ "\n</table/>"),
        none, none⟩ :=
  ⟨by simp, listShortcuts_renders_table [("test", ["27"])] (by simp) "" none none⟩

/-- C4: `listShortcuts` never modifies the shortcut registry: the registry
component of the result is the input registry, so the registered shortcut
names and the key codes bound to each name are identical before and after the
call; only the announcer output element is written. -/
theorem listShortcuts_preserves_registry (reg : Registry) (a : AnnouncerState) :
    (listShortcuts reg a).1 = reg ∧
    (listShortcuts reg a).1.map Prod.fst = reg.map Prod.fst ∧
    ∀ n : String, List.lookup n (listShortcuts reg a).1 = List.lookup n reg := by
  have h : (listShortcuts reg a).1 = reg := by
    simp [listShortcuts, getRegistry, foldl_step_registry]
  exact ⟨h, by rw [h], fun n => by rw [h]⟩

/-- C6: `setText` writes exactly the given text to the output element when it
exists, with no transformation; when the announcer element was not found at
construction time (the output field is `none`), both `setText` and
`listShortcuts` leave all state unchanged; the constructor started from a
missing element has no output element. -/
theorem setText_spec :
    (∀ (text c : String) (m d : Option String),
        setText text ⟨some c, m, d⟩ = ⟨some text, m, d⟩) ∧
    (∀ (text : String) (m d : Option String),
        setText text ⟨none, m, d⟩ = ⟨none, m, d⟩) ∧
    (∀ (reg : Registry) (m d : Option String),
        listShortcuts reg ⟨none, m, d⟩ = (reg, ⟨none, m, d⟩)) ∧
    newAnnouncer none = ⟨none, none, none⟩ := by
  refine ⟨fun text c m d => rfl, fun text m d => rfl, ?_, rfl⟩
  intro reg m d
  simp [listShortcuts, getRegistry, foldl_step_registry]

end AnnouncerModule

end KeyboardNav
